import Mathlib

/-!
Verification development for the resilient stock-quote resolution pipeline:
the session-aware endpoint waterfall in PolygonApiService.getQuote, the
field-classification in StockDataService.convertPolygonQuoteToStock, the
placeholder policy in createDefaultStockData, and the batch orchestration in
getMultipleStocksData.  All monetary values are modelled as rationals and
the ambient wall clock is passed as an explicit local-time parameter.
-/

set_option maxHeartbeats 1000000
set_option maxRecDepth 8000

/-- Local wall-clock evaluation time, at the granularity the code reads
(day of week via getDay, hour via getHours, minute for the session model). -/
structure LocalTime where
  day : Nat
  hour : Nat
  minute : Nat
  hday : day < 7
  hhour : hour < 24
  hminute : minute < 60

/-- Weekend test from the source: day 0 is Sunday, day 6 is Saturday. -/
def isWeekend (t : LocalTime) : Bool :=
  decide (t.day = 0) || decide (t.day = 6)

/-- Market-hours test from the source: false on weekends, otherwise true for
hours 4 through 20 inclusive (the code deliberately counts pre-market and
after-hours as market hours). -/
def isMarketHours (t : LocalTime) : Bool :=
  if t.day = 0 ∨ t.day = 6 then false
  else decide (4 ≤ t.hour) && decide (t.hour ≤ 20)

/-- Off-hours condition used by the source at every session-dependent branch:
isWeekend or not isMarketHours. -/
def marketOffHours (t : LocalTime) : Bool :=
  isWeekend t || !isMarketHours t

/-- Session states named by the specification. -/
inductive SessionState where
  | OPEN
  | EXTENDED
  | CLOSED_WEEKEND
  | CLOSED_OVERNIGHT
deriving DecidableEq, Repr

/-- Modelled from the spec: getSessionState is exposed by the core surface but
has no single implementation in the sources (the code only has the two
booleans above).  Per the spec, OPEN is the regular session 9:30 to 16:00 on
weekdays, EXTENDED is pre-market 4:00 to 9:30 and after-hours 16:00 to 20:00,
weekends are CLOSED_WEEKEND and any other weekday time is CLOSED_OVERNIGHT. -/
def getSessionState (t : LocalTime) : SessionState :=
  if t.day = 0 ∨ t.day = 6 then SessionState.CLOSED_WEEKEND
  else if 570 ≤ t.hour * 60 + t.minute ∧ t.hour * 60 + t.minute < 960 then
    SessionState.OPEN
  else if (240 ≤ t.hour * 60 + t.minute ∧ t.hour * 60 + t.minute < 570)
      ∨ (960 ≤ t.hour * 60 + t.minute ∧ t.hour * 60 + t.minute < 1200) then
    SessionState.EXTENDED
  else SessionState.CLOSED_OVERNIGHT

/-- Error kinds thrown by makeRequest, classified by HTTP status exactly as
the source does: 401, 403, 429, any other non-ok status, a transport failure,
and the missing-api-key configuration error. -/
inductive ApiError where
  | configError
  | unauthorized
  | forbidden
  | rateLimited
  | serverError (status : Nat)
  | transport
deriving DecidableEq, Repr

/-- One OHLCV aggregate bar as returned by the previous-close endpoint and as
carried in the min and prevDay snapshot fields. -/
structure Bar where
  c : Rat
  h : Rat
  l : Rat
  o : Rat
  v : Rat
deriving DecidableEq, Repr

/-- Raw last-trade object of the snapshot endpoint, field p is the price. -/
structure RawLastTrade where
  p : Rat
  t : Int
deriving DecidableEq, Repr

/-- Raw last-quote object of the snapshot endpoint, fields a and b are the
ask and bid prices. -/
structure RawLastQuote where
  a : Rat
  b : Rat
  t : Int
deriving DecidableEq, Repr

/-- Raw snapshot result body, the shape getQuote reads from the snapshot
endpoint and also the shape it synthesizes from a previous-close bar. -/
structure RawSnapshot where
  ticker : Option String := none
  name : Option String := none
  last_trade : Option RawLastTrade := none
  last_quote : Option RawLastQuote := none
  min : Option Bar := none
  prevDay : Option Bar := none
  fmv : Option Rat := none
deriving DecidableEq, Repr

/-- Parsed body of the previous-close endpoint: a status string and an
optional list of result bars. -/
structure PrevCloseBody where
  status : String
  results : Option (List Bar)
deriving DecidableEq, Repr

/-- Parsed body of the snapshot endpoint: a status string and an optional
raw snapshot result. -/
structure SnapshotBody where
  status : String
  results : Option RawSnapshot
deriving DecidableEq, Repr

/-- Price point of the normalized PolygonQuote shape. -/
structure LastPoint where
  price : Rat
  timestamp : Int
deriving DecidableEq, Repr

/-- Normalized quote shape produced by getQuote. -/
structure PolygonQuote where
  ticker : String
  name : Option String := none
  last_trade : Option LastPoint := none
  last_quote : Option LastPoint := none
  min : Option Bar := none
  prevDay : Option Bar := none
  fmv : Option Rat := none
deriving DecidableEq, Repr

/-- Ticker reference details, restricted to the fields the pipeline writes
and reads. -/
structure PolygonTickerDetails where
  ticker : String
  name : String
  market : String
  locale : String
  primary_exchange : String
  type : String
  active : Bool
  currency_name : String
deriving DecidableEq, Repr

/-- Behaviour of the upstream data service during one resolution call: the
response delivered to the n-th request of the call, per endpoint, plus the
outcome of the ticker-details lookup. -/
structure QuoteEnv where
  prevCloseResp : Nat → Except ApiError PrevCloseBody
  snapshotResp : Nat → Except ApiError SnapshotBody
  detailsResp : Except ApiError PolygonTickerDetails

/-- Endpoints attempted by the getQuote waterfall. -/
inductive Endpoint where
  | prevClose
  | snapshot
deriving DecidableEq, Repr

/-- The only error getQuote itself raises: every per-attempt error is caught
inside the waterfall, and the final no-data check throws. -/
inductive GetQuoteErr where
  | noData
deriving DecidableEq, Repr

/-- One previous-close attempt: any thrown error is caught and yields no
result; a body with status OK and a non-empty results list is folded into a
synthetic raw snapshot holding only ticker and prevDay. -/
def runPrevCloseAttempt (resp : Except ApiError PrevCloseBody) (symbol : String) :
    Option RawSnapshot :=
  match resp with
  | Except.error _ => none
  | Except.ok body =>
    if body.status = "OK" then
      match body.results with
      | some (bar :: _) => some { ticker := some symbol, prevDay := some bar }
      | _ => none
    else none

/-- One snapshot attempt: any thrown error is caught and yields no result; a
body with status OK and a present results object yields that object. -/
def runSnapshotAttempt (resp : Except ApiError SnapshotBody) : Option RawSnapshot :=
  match resp with
  | Except.error _ => none
  | Except.ok body => if body.status = "OK" then body.results else none

/-- JavaScript string fallback: an absent or empty string falls through to
the alternative. -/
def jsOrStr (x : Option String) (y : String) : String :=
  match x with
  | some s => if s = "" then y else s
  | none => y

/-- Final transformation of a raw result into the PolygonQuote shape,
including the last-quote midpoint computation (a + b) / 2. -/
def transformResult (symbol : String) (r : RawSnapshot) : PolygonQuote :=
  { ticker := jsOrStr r.ticker symbol
    name := r.name
    last_trade := r.last_trade.map (fun lt => { price := lt.p, timestamp := lt.t })
    last_quote := r.last_quote.map (fun lq => { price := (lq.a + lq.b) / 2, timestamp := lq.t })
    min := r.min
    prevDay := r.prevDay
    fmv := r.fmv }

/-- The session-aware waterfall of PolygonApiService.getQuote.  During
off-hours the previous-close endpoint is consulted first; the snapshot
endpoint runs only when there is no result yet; a final previous-close retry
is the last resort; with no result at all the call fails with the generic
no-data error.  The second component records the endpoints attempted, in
order. -/
def getQuote (e : QuoteEnv) (t : LocalTime) (symbol : String) :
    Except GetQuoteErr PolygonQuote × List Endpoint :=
  if marketOffHours t then
    match runPrevCloseAttempt (e.prevCloseResp 0) symbol with
    | some raw => (Except.ok (transformResult symbol raw), [Endpoint.prevClose])
    | none =>
      match runSnapshotAttempt (e.snapshotResp 1) with
      | some raw =>
        (Except.ok (transformResult symbol raw), [Endpoint.prevClose, Endpoint.snapshot])
      | none =>
        match runPrevCloseAttempt (e.prevCloseResp 2) symbol with
        | some raw =>
          (Except.ok (transformResult symbol raw),
            [Endpoint.prevClose, Endpoint.snapshot, Endpoint.prevClose])
        | none =>
          (Except.error GetQuoteErr.noData,
            [Endpoint.prevClose, Endpoint.snapshot, Endpoint.prevClose])
  else
    match runSnapshotAttempt (e.snapshotResp 0) with
    | some raw => (Except.ok (transformResult symbol raw), [Endpoint.snapshot])
    | none =>
      match runPrevCloseAttempt (e.prevCloseResp 1) symbol with
      | some raw =>
        (Except.ok (transformResult symbol raw), [Endpoint.snapshot, Endpoint.prevClose])
      | none =>
        (Except.error GetQuoteErr.noData, [Endpoint.snapshot, Endpoint.prevClose])

/-- Ticker-details lookup: it never fails; any error is replaced by the
symbol-derived fallback record from the source. -/
def getTickerDetails (e : QuoteEnv) (symbol : String) : PolygonTickerDetails :=
  match e.detailsResp with
  | Except.ok d => d
  | Except.error _ =>
    { ticker := symbol
      name := symbol
      market := "stocks"
      locale := "us"
      primary_exchange := "UNKNOWN"
      type := "CS"
      active := true
      currency_name := "usd" }

/-- Stock shape as populated by the pipeline; the fields are exactly those
written by convertPolygonQuoteToStock and createDefaultStockData.  Fields the
placeholder path leaves undefined are optional. -/
structure Stock where
  symbol : String
  name : String
  price : Rat
  change : Rat
  changePercent : Rat
  volume : Rat
  high : Rat
  low : Rat
  preMarketPrice : Option Rat := none
  preMarketChange : Option Rat := none
  preMarketChangePercent : Option Rat := none
deriving DecidableEq, Repr

/-- JavaScript numeric truthiness of an optional field access: false when the
field is absent or its value is zero. -/
def jsNumTruthy (x : Option Rat) : Bool :=
  match x with
  | some v => decide (v ≠ 0)
  | none => false

/-- Value of an optional numeric field, zero when absent. -/
def jsNumVal (x : Option Rat) : Rat := x.getD 0

/-- The price-selection chain of convertPolygonQuoteToStock: last-trade
price, then last-quote price, then intraday-aggregate close, then previous
day close.  The boolean records usesPrevDayAsCurrentPrice. -/
def selectPrice (q : PolygonQuote) : Rat × Bool :=
  if jsNumTruthy (q.last_trade.map LastPoint.price) then
    (jsNumVal (q.last_trade.map LastPoint.price), false)
  else if jsNumTruthy (q.last_quote.map LastPoint.price) then
    (jsNumVal (q.last_quote.map LastPoint.price), false)
  else if jsNumTruthy (q.min.map Bar.c) then
    (jsNumVal (q.min.map Bar.c), false)
  else if jsNumTruthy (q.prevDay.map Bar.c) then
    (jsNumVal (q.prevDay.map Bar.c), true)
  else (0, false)

/-- Degradation flag of a conversion: the previous-day close was used as the
current price. -/
def usesPrevDayAsCurrentPrice (q : PolygonQuote) : Bool := (selectPrice q).2

/-- The field classification of StockDataService.convertPolygonQuoteToStock:
price from the selection chain, change suppressed unless a live current
price and a positive previous close are available, volume from the intraday
aggregate then the previous day, and high with low selected together from
the intraday aggregate pair or the previous-day pair. -/
def convertPolygonQuoteToStock (q : PolygonQuote) (details : Option PolygonTickerDetails) :
    Stock :=
  { symbol := q.ticker
    name := jsOrStr (details.map PolygonTickerDetails.name)
      (jsOrStr q.name (q.ticker ++ " Inc."))
    price := (selectPrice q).1
    change :=
      if decide (0 < (selectPrice q).1) && decide (0 < jsNumVal (q.prevDay.map Bar.c))
          && !(selectPrice q).2 then
        (selectPrice q).1 - jsNumVal (q.prevDay.map Bar.c)
      else 0
    changePercent :=
      if decide (0 < (selectPrice q).1) && decide (0 < jsNumVal (q.prevDay.map Bar.c))
          && !(selectPrice q).2 then
        ((selectPrice q).1 - jsNumVal (q.prevDay.map Bar.c))
          / jsNumVal (q.prevDay.map Bar.c) * 100
      else 0
    volume :=
      if jsNumTruthy (q.min.map Bar.v) then jsNumVal (q.min.map Bar.v)
      else if jsNumTruthy (q.prevDay.map Bar.v) then jsNumVal (q.prevDay.map Bar.v)
      else 0
    high :=
      if jsNumTruthy (q.min.map Bar.h) && jsNumTruthy (q.min.map Bar.l) then
        jsNumVal (q.min.map Bar.h)
      else if jsNumTruthy (q.prevDay.map Bar.h) && jsNumTruthy (q.prevDay.map Bar.l) then
        jsNumVal (q.prevDay.map Bar.h)
      else (selectPrice q).1
    low :=
      if jsNumTruthy (q.min.map Bar.h) && jsNumTruthy (q.min.map Bar.l) then
        jsNumVal (q.min.map Bar.l)
      else if jsNumTruthy (q.prevDay.map Bar.h) && jsNumTruthy (q.prevDay.map Bar.l) then
        jsNumVal (q.prevDay.map Bar.l)
      else (selectPrice q).1
    preMarketPrice :=
      match q.fmv with
      | some v => if v = 0 then none else some v
      | none => none
    preMarketChange := none
    preMarketChangePercent := none }

/-- Rounding of Math.round: the nearest integer, ties toward positive
infinity. -/
def jsRound (x : Rat) : Int := Int.floor (x + 1 / 2)

/-- Rounding to two decimal places as done in the source, Math.round of the
value times 100, divided by 100. -/
def round2 (x : Rat) : Rat := (jsRound (x * 100) : Rat) / 100

/-- StockDataService.createDefaultStockData with the Math.random calls made
explicit: the n-th random draw of the call is rand n, in source order
(base price, change, volume, high, low). -/
def createDefaultStockData (symbol : String) (rand : Nat → Rat) : Stock :=
  { symbol := symbol
    name := symbol ++ " Inc."
    price := round2 (rand 0 * 300 + 50)
    change := round2 ((rand 1 - 1 / 2) * 10)
    changePercent := round2 ((rand 1 - 1 / 2) * 10 / (rand 0 * 300 + 50) * 100)
    volume := ((Int.floor (rand 2 * 10000000) + 1000000 : Int) : Rat)
    high := round2 (rand 0 * 300 + 50 + |(rand 1 - 1 / 2) * 10| + rand 3 * 5)
    low := round2 (rand 0 * 300 + 50 - |(rand 1 - 1 / 2) * 10| - rand 4 * 5) }

/-- StockDataService.getStockData: quote and details are fetched with
settled semantics; a failed quote yields the synthetic placeholder data, a
successful quote is converted with the always-available details. -/
def getStockData (e : QuoteEnv) (t : LocalTime) (rand : Nat → Rat) (symbol : String) :
    Stock :=
  match (getQuote e t symbol).1 with
  | Except.ok q => convertPolygonQuoteToStock q (some (getTickerDetails e symbol))
  | Except.error _ => createDefaultStockData symbol rand

/-- Events of one orchestration run: a concurrently fetched group of symbols,
or a timed suspension of the given number of milliseconds. -/
inductive BatchEvent where
  | fetchGroup (g : List String)
  | wait (ms : Nat)
deriving DecidableEq, Repr

/-- Fuel-indexed batch partition mirroring the source loop: each step takes
the next batchSize symbols; the fuel is an upper bound on the number of
steps and is always instantiated with the list length. -/
def batchGroupsFuel (bs : Nat) : Nat → List String → List (List String)
  | _, [] => []
  | 0, _ :: _ => []
  | fuel + 1, x :: rest =>
    (x :: rest.take (bs - 1)) :: batchGroupsFuel bs fuel (rest.drop (bs - 1))

/-- Partition of the symbol list into consecutive groups of batchSize, the
final group possibly smaller. -/
def batchGroups (bs : Nat) (xs : List String) : List (List String) :=
  batchGroupsFuel bs xs.length xs

/-- Fuel-indexed schedule trace mirroring the source loop: fetch a group,
then wait for the inter-batch delay exactly when further symbols remain. -/
def scheduleFuel (bs delay : Nat) : Nat → List String → List BatchEvent
  | _, [] => []
  | 0, _ :: _ => []
  | fuel + 1, x :: rest =>
    BatchEvent.fetchGroup (x :: rest.take (bs - 1)) ::
      (if (rest.drop (bs - 1)).isEmpty then []
       else BatchEvent.wait delay :: scheduleFuel bs delay fuel (rest.drop (bs - 1)))

/-- Batch plan of one orchestration call for a given symbol list. -/
def schedulePlan (bs delay : Nat) (xs : List String) : List BatchEvent :=
  scheduleFuel bs delay xs.length xs

/-- The pacing trace of getMultipleStocksData: batch size 2 with delay
2000 ms during off-hours, batch size 3 with delay 1500 ms otherwise. -/
def batchSchedule (t : LocalTime) (symbols : List String) : List BatchEvent :=
  schedulePlan (if marketOffHours t then 2 else 3)
    (if marketOffHours t then 2000 else 1500) symbols

/-- JavaScript object assignment on a keyed list: replace the value at an
existing key in place, otherwise append the new entry. -/
def objInsert : List (String × Stock) → String → Stock → List (String × Stock)
  | [], k, v => [(k, v)]
  | p :: rest, k, v =>
    if p.1 = k then (k, v) :: rest else p :: objInsert rest k v

/-- The result aggregation of getMultipleStocksData: symbols are processed in
batch order, which flattens to input order, and every symbol contributes one
entry through its own isolated resolution. -/
def getMultipleStocksData (envs : String → QuoteEnv) (t : LocalTime)
    (rands : String → Nat → Rat) (symbols : List String) : List (String × Stock) :=
  (batchGroups (if marketOffHours t then 2 else 3) symbols).flatten.foldl
    (fun m s => objInsert m s (getStockData (envs s) t (rands s) s)) []

/-- Key list of an aggregation result. -/
def stockKeys (m : List (String × Stock)) : List String := m.map Prod.fst

/-- Saturday noon, a CLOSED_WEEKEND evaluation time. -/
def tSat : LocalTime := ⟨6, 12, 0, by decide, by decide, by decide⟩

/-- Tuesday 5:00, a pre-market EXTENDED evaluation time. -/
def tExt : LocalTime := ⟨2, 5, 0, by decide, by decide, by decide⟩

/-- Tuesday 10:00, an OPEN evaluation time. -/
def tOpen : LocalTime := ⟨2, 10, 0, by decide, by decide, by decide⟩

/-- A data service that answers every request with an Unauthorized error. -/
def envU : QuoteEnv :=
  { prevCloseResp := fun _ => Except.error ApiError.unauthorized
    snapshotResp := fun _ => Except.error ApiError.unauthorized
    detailsResp := Except.error ApiError.unauthorized }

/-- Raw snapshot with a live last trade at 190 and a previous-day close of
188, matching the OPEN scenario of the specification. -/
def rawAAPL : RawSnapshot :=
  { ticker := some "AAPL"
    last_trade := some { p := 190, t := 0 }
    prevDay := some { c := 188, h := 191, l := 187, o := 189, v := 1000 } }

/-- A data service whose previous-close endpoint is rate limited but whose
snapshot endpoint returns live data. -/
def envLive : QuoteEnv :=
  { prevCloseResp := fun _ => Except.error ApiError.rateLimited
    snapshotResp := fun _ => Except.ok { status := "OK", results := some rawAAPL }
    detailsResp := Except.error ApiError.transport }

/-- Previous-close body holding a single bar with close 101.5. -/
def prevBodyOK : PrevCloseBody :=
  { status := "OK"
    results := some [{ c := 203 / 2, h := 102, l := 101, o := 102, v := 5000 }] }

/-- A data service whose previous-close endpoint succeeds with one bar. -/
def envPrevOK : QuoteEnv :=
  { prevCloseResp := fun _ => Except.ok prevBodyOK
    snapshotResp := fun _ => Except.error ApiError.forbidden
    detailsResp := Except.error ApiError.transport }

/-- Quote holding only a previous-day close, the degraded-path shape. -/
def qPrev : PolygonQuote :=
  { ticker := "XYZ"
    prevDay := some { c := 203 / 2, h := 102, l := 101, o := 102, v := 5000 } }

/-- Quote whose intraday aggregate has a high but a zero low and no
previous-day bar. -/
def qNine : PolygonQuote :=
  { ticker := "XYZ"
    min := some { c := 5, h := 10, l := 0, o := 0, v := 0 } }

/-- Quote in which every price source is present but zero. -/
def qZero : PolygonQuote :=
  { ticker := "ZERO"
    last_trade := some { price := 0, timestamp := 0 }
    last_quote := some { price := 0, timestamp := 0 }
    min := some { c := 0, h := 0, l := 0, o := 0, v := 0 }
    prevDay := some { c := 0, h := 0, l := 0, o := 0, v := 0 } }

/-- Quote with a live last trade at 190 over a previous close of 188. -/
def qLive : PolygonQuote :=
  { ticker := "AAPL"
    last_trade := some { price := 190, timestamp := 0 }
    prevDay := some { c := 188, h := 191, l := 187, o := 189, v := 1000 } }

/-- Degradation flag of a resolution outcome. -/
def quoteFlag (r : Except GetQuoteErr PolygonQuote) : Except GetQuoteErr Bool :=
  r.map usesPrevDayAsCurrentPrice

/-- Non-negativity of every price-source field of a quote, the domain
constraint the data model places on upstream prices. -/
def nonnegPrices (q : PolygonQuote) : Bool :=
  (q.last_trade.map LastPoint.price).all (fun v => decide (0 ≤ v))
  && (q.last_quote.map LastPoint.price).all (fun v => decide (0 ≤ v))
  && (q.min.map Bar.c).all (fun v => decide (0 ≤ v))
  && (q.prevDay.map Bar.c).all (fun v => decide (0 ≤ v))

/-- Decidable equality for resolution outcomes, by cases on the two
constructors. -/
instance exceptDecEq {ε α : Type} [DecidableEq ε] [DecidableEq α] :
    DecidableEq (Except ε α) := fun x y =>
  match x, y with
  | Except.ok a, Except.ok b =>
    if h : a = b then isTrue (by rw [h]) else isFalse (by simp [h])
  | Except.error a, Except.error b =>
    if h : a = b then isTrue (by rw [h]) else isFalse (by simp [h])
  | Except.ok _, Except.error _ => isFalse (by simp)
  | Except.error _, Except.ok _ => isFalse (by simp)

/-- An OPEN session time is never an off-hours time for the code: the
regular session lies inside the 4 to 20 weekday hour window. -/
theorem open_not_offHours (t : LocalTime) (h : getSessionState t = SessionState.OPEN) :
    marketOffHours t = false := by
  have hm := t.hminute
  unfold getSessionState at h
  by_cases hw : t.day = 0 ∨ t.day = 6
  · rw [if_pos hw] at h
    exact absurd h (by simp)
  · rw [if_neg hw] at h
    by_cases ho : 570 ≤ t.hour * 60 + t.minute ∧ t.hour * 60 + t.minute < 960
    · unfold marketOffHours isWeekend isMarketHours
      rw [if_neg hw]
      have h1 : ¬ t.day = 0 := fun hx => hw (Or.inl hx)
      have h2 : ¬ t.day = 6 := fun hx => hw (Or.inr hx)
      have h4 : 4 ≤ t.hour := by omega
      have h20 : t.hour ≤ 20 := by omega
      simp [h1, h2, h4, h20]
    · rw [if_neg ho] at h
      split at h <;> simp_all

/-- An EXTENDED session time is never an off-hours time for the code: both
extended windows lie inside the 4 to 20 weekday hour window. -/
theorem extended_not_offHours (t : LocalTime)
    (h : getSessionState t = SessionState.EXTENDED) :
    marketOffHours t = false := by
  have hm := t.hminute
  unfold getSessionState at h
  by_cases hw : t.day = 0 ∨ t.day = 6
  · rw [if_pos hw] at h
    exact absurd h (by simp)
  · rw [if_neg hw] at h
    by_cases ho : 570 ≤ t.hour * 60 + t.minute ∧ t.hour * 60 + t.minute < 960
    · rw [if_pos ho] at h
      exact absurd h (by simp)
    · rw [if_neg ho] at h
      by_cases he : (240 ≤ t.hour * 60 + t.minute ∧ t.hour * 60 + t.minute < 570)
          ∨ (960 ≤ t.hour * 60 + t.minute ∧ t.hour * 60 + t.minute < 1200)
      · unfold marketOffHours isWeekend isMarketHours
        rw [if_neg hw]
        have h1 : ¬ t.day = 0 := fun hx => hw (Or.inl hx)
        have h2 : ¬ t.day = 6 := fun hx => hw (Or.inr hx)
        have h4 : 4 ≤ t.hour := by omega
        have h20 : t.hour ≤ 20 := by omega
        simp [h1, h2, h4, h20]
      · rw [if_neg he] at h
        exact absurd h (by simp)

/-- C1, counterexample: with every endpoint answering 401 at Saturday noon,
getQuote still performs two further endpoint attempts after the first
Unauthorized response, fails with the generic no-data error rather than the
Unauthorized error, and getStockData absorbs even that, returning the
synthetic placeholder instead of propagating a failure. -/
theorem unauthorized_counterexample :
    (getQuote envU tSat "AAPL").2
      = [Endpoint.prevClose, Endpoint.snapshot, Endpoint.prevClose]
    ∧ (getQuote envU tSat "AAPL").1 = Except.error GetQuoteErr.noData
    ∧ getStockData envU tSat (fun _ => 0) "AAPL"
      = createDefaultStockData "AAPL" (fun _ => 0) := by
  refine ⟨by with_unfolding_all decide, by with_unfolding_all decide, ?_⟩
  unfold getStockData
  rw [show (getQuote envU tSat "AAPL").1 = Except.error GetQuoteErr.noData from by
    with_unfolding_all decide]

/-- C1, amended: an Unauthorized response is absorbed inside the waterfall
like every other error kind; when every endpoint answers 401 the resolver
still attempts at least one further endpoint and ends in the generic
no-data failure, never in a propagated Unauthorized error. -/
theorem unauthorized_absorbed (t : LocalTime) (e : QuoteEnv) (s : String)
    (hp : ∀ n, e.prevCloseResp n = Except.error ApiError.unauthorized)
    (hs : ∀ n, e.snapshotResp n = Except.error ApiError.unauthorized) :
    (getQuote e t s).1 = Except.error GetQuoteErr.noData
    ∧ 2 ≤ (getQuote e t s).2.length := by
  unfold getQuote
  by_cases h : marketOffHours t <;>
    simp [h, hp 0, hp 1, hp 2, hs 0, hs 1, runPrevCloseAttempt, runSnapshotAttempt]

/-- C1, witness for the amended statement at the all-401 service on
Saturday noon. -/
theorem unauthorized_absorbed_witness :
    (getQuote envU tSat "AAPL").1 = Except.error GetQuoteErr.noData
    ∧ 2 ≤ (getQuote envU tSat "AAPL").2.length :=
  unauthorized_absorbed tSat envU "AAPL" (fun _ => rfl) (fun _ => rfl)

/-- C3, counterexample: Tuesday 5:00 is an EXTENDED session time, yet the
first endpoint the waterfall attempts is the snapshot endpoint, not the
previous-close endpoint. -/
theorem extended_snapshot_first_counterexample :
    getSessionState tExt = SessionState.EXTENDED
    ∧ (getQuote envU tExt "AAPL").2.head? = some Endpoint.snapshot := by
  with_unfolding_all decide

/-- C3, amended: the previous-close-first ordering holds exactly for the
off-hours times of the code, namely weekends and weekday hours outside 4 to
20; at such times the first attempt is the previous-close endpoint and the
snapshot endpoint is attempted only when that first attempt yielded no
result.  EXTENDED times fall in the 4 to 20 window and are served
snapshot-first. -/
theorem offhours_prevclose_first (t : LocalTime) (e : QuoteEnv) (s : String)
    (h : marketOffHours t = true) :
    (getQuote e t s).2.head? = some Endpoint.prevClose
    ∧ (Endpoint.snapshot ∈ (getQuote e t s).2 →
        runPrevCloseAttempt (e.prevCloseResp 0) s = none) := by
  unfold getQuote
  rw [if_pos h]
  cases hpc : runPrevCloseAttempt (e.prevCloseResp 0) s with
  | some raw => exact ⟨rfl, fun hmem => absurd hmem (by simp)⟩
  | none =>
    cases hs : runSnapshotAttempt (e.snapshotResp 1) with
    | some raw => exact ⟨rfl, fun _ => rfl⟩
    | none =>
      cases hp2 : runPrevCloseAttempt (e.prevCloseResp 2) s with
      | some raw => exact ⟨rfl, fun _ => rfl⟩
      | none => exact ⟨rfl, fun _ => rfl⟩

/-- C3, witness for the amended statement: Saturday noon with a successful
previous-close endpoint. -/
theorem offhours_prevclose_first_witness :
    (getQuote envPrevOK tSat "XYZ").2.head? = some Endpoint.prevClose
    ∧ (Endpoint.snapshot ∈ (getQuote envPrevOK tSat "XYZ").2 →
        runPrevCloseAttempt (envPrevOK.prevCloseResp 0) "XYZ" = none) :=
  offhours_prevclose_first tSat envPrevOK "XYZ" (by with_unfolding_all decide)

/-- C2, counterexample: at the EXTENDED time Tuesday 5:00, a successful
resolution built from live snapshot data carries a nonzero change of 2 and a
degradation flag of false, although the session state is not OPEN. -/
theorem nonopen_live_change_counterexample :
    getSessionState tExt = SessionState.EXTENDED
    ∧ (getStockData envLive tExt (fun _ => 0) "AAPL").change = 2
    ∧ ¬ (getStockData envLive tExt (fun _ => 0) "AAPL").change = 0
    ∧ quoteFlag ((getQuote envLive tExt "AAPL").1) = Except.ok false := by
  with_unfolding_all decide

/-- C2, amended: whenever a conversion used the previous-day close as the
current price, the degraded invariant holds, change and changePercent are
both zero; a resolution at a non-OPEN time only carries this flag when the
degraded path actually produced the price, since snapshot fallbacks may
still return live data. -/
theorem degraded_zero_change (q : PolygonQuote) (d : Option PolygonTickerDetails)
    (h : usesPrevDayAsCurrentPrice q = true) :
    (convertPolygonQuoteToStock q d).change = 0
    ∧ (convertPolygonQuoteToStock q d).changePercent = 0 := by
  unfold usesPrevDayAsCurrentPrice at h
  unfold convertPolygonQuoteToStock
  simp [h]

/-- C2, witness for the amended statement at a previous-day-only quote. -/
theorem degraded_zero_change_witness :
    usesPrevDayAsCurrentPrice qPrev = true
    ∧ (convertPolygonQuoteToStock qPrev none).change = 0
    ∧ (convertPolygonQuoteToStock qPrev none).changePercent = 0 := by
  refine ⟨by with_unfolding_all decide, ?_, ?_⟩
  · exact (degraded_zero_change qPrev none (by with_unfolding_all decide)).1
  · exact (degraded_zero_change qPrev none (by with_unfolding_all decide)).2

/-- C4, counterexample: Tuesday 5:00 is an EXTENDED, hence non-OPEN, session
time, yet the orchestrator batches five symbols as one group of three and
one group of two with a single 1500 ms delay, not groups of two with
2000 ms delays. -/
theorem extended_batch_params_counterexample :
    getSessionState tExt = SessionState.EXTENDED
    ∧ batchSchedule tExt ["A", "B", "C", "D", "E"]
      = [BatchEvent.fetchGroup ["A", "B", "C"], BatchEvent.wait 1500,
         BatchEvent.fetchGroup ["D", "E"]] := by
  with_unfolding_all decide

/-- C4, amended: batch size 2 with delay 2000 ms applies exactly at the
off-hours times of the code, weekends and weekday hours outside 4 to 20,
while EXTENDED times are paced like OPEN with batch size 3 and delay
1500 ms; for five symbols at Saturday noon the schedule is exactly three
groups of sizes 2, 2 and 1 in input order with two 2000 ms delays. -/
theorem batch_params_amended :
    (∀ (t : LocalTime) (syms : List String), marketOffHours t = true →
      batchSchedule t syms = schedulePlan 2 2000 syms)
    ∧ (∀ (t : LocalTime) (syms : List String),
        getSessionState t = SessionState.EXTENDED →
        batchSchedule t syms = schedulePlan 3 1500 syms)
    ∧ getSessionState tSat = SessionState.CLOSED_WEEKEND
    ∧ batchSchedule tSat ["A", "B", "C", "D", "E"]
      = [BatchEvent.fetchGroup ["A", "B"], BatchEvent.wait 2000,
         BatchEvent.fetchGroup ["C", "D"], BatchEvent.wait 2000,
         BatchEvent.fetchGroup ["E"]] := by
  refine ⟨?_, ?_, by with_unfolding_all decide, by with_unfolding_all decide⟩
  · intro t syms h
    simp [batchSchedule, h]
  · intro t syms h
    simp [batchSchedule, extended_not_offHours t h]

/-- C4, witness for the universally quantified part of the amended
statement, applied at Saturday noon. -/
theorem batch_params_amended_witness :
    batchSchedule tSat ["A", "B"] = schedulePlan 2 2000 ["A", "B"] :=
  batch_params_amended.1 tSat ["A", "B"] (by with_unfolding_all decide)

/-- Membership in the key list after a JavaScript object assignment. -/
theorem mem_stockKeys_objInsert (m : List (String × Stock)) (k s : String) (v : Stock) :
    s ∈ stockKeys (objInsert m k v) ↔ s = k ∨ s ∈ stockKeys m := by
  induction m with
  | nil => simp [objInsert, stockKeys]
  | cons p rest ih =>
    simp only [stockKeys] at ih
    by_cases hp : p.1 = k
    · simp only [objInsert, if_pos hp, stockKeys, List.map_cons, List.mem_cons]
      constructor
      · rintro (h | h)
        · exact Or.inl h
        · exact Or.inr (Or.inr h)
      · rintro (h | h | h)
        · exact Or.inl h
        · exact Or.inl (by rw [h, hp])
        · exact Or.inr h
    · simp only [objInsert, if_neg hp, stockKeys, List.map_cons, List.mem_cons]
      rw [ih]
      tauto

/-- A JavaScript object assignment preserves distinctness of keys. -/
theorem nodup_stockKeys_objInsert (m : List (String × Stock)) (k : String) (v : Stock)
    (h : (stockKeys m).Nodup) : (stockKeys (objInsert m k v)).Nodup := by
  induction m with
  | nil => simp [objInsert, stockKeys]
  | cons p rest ih =>
    simp only [stockKeys, List.map_cons, List.nodup_cons] at h
    by_cases hp : p.1 = k
    · simp only [objInsert, if_pos hp, stockKeys, List.map_cons, List.nodup_cons]
      exact ⟨by rw [← hp]; exact h.1, h.2⟩
    · simp only [objInsert, if_neg hp, stockKeys, List.map_cons, List.nodup_cons]
      refine ⟨?_, ih h.2⟩
      intro hmem
      rcases (mem_stockKeys_objInsert rest k p.1 v).mp hmem with hk | hin
      · exact hp hk
      · exact h.1 hin

/-- Folding object assignments over a symbol list accumulates exactly the
keys of the accumulator and the processed symbols. -/
theorem mem_stockKeys_foldl (f : String → Stock) (syms : List String) :
    ∀ (acc : List (String × Stock)) (s : String),
      s ∈ stockKeys (syms.foldl (fun m x => objInsert m x (f x)) acc)
        ↔ s ∈ stockKeys acc ∨ s ∈ syms := by
  induction syms with
  | nil =>
    intro acc s
    simp
  | cons x rest ih =>
    intro acc s
    rw [List.foldl_cons, ih, mem_stockKeys_objInsert]
    simp only [List.mem_cons]
    tauto

/-- Folding object assignments over a symbol list preserves distinctness of
keys. -/
theorem nodup_stockKeys_foldl (f : String → Stock) (syms : List String) :
    ∀ (acc : List (String × Stock)), (stockKeys acc).Nodup →
      (stockKeys (syms.foldl (fun m x => objInsert m x (f x)) acc)).Nodup := by
  induction syms with
  | nil =>
    intro acc h
    simpa using h
  | cons x rest ih =>
    intro acc h
    rw [List.foldl_cons]
    exact ih _ (nodup_stockKeys_objInsert _ _ _ h)

/-- The batch partition flattens back to the input list whenever the fuel
covers the list length. -/
theorem batchGroupsFuel_flatten (bs : Nat) :
    ∀ (fuel : Nat) (xs : List String), xs.length ≤ fuel →
      (batchGroupsFuel bs fuel xs).flatten = xs := by
  intro fuel
  induction fuel with
  | zero =>
    intro xs h
    cases xs with
    | nil => rfl
    | cons x rest => simp at h
  | succ n ih =>
    intro xs h
    cases xs with
    | nil => rfl
    | cons x rest =>
      simp only [batchGroupsFuel, List.flatten_cons]
      rw [ih]
      · rw [List.cons_append, List.take_append_drop]
      · simp only [List.length_cons] at h
        simp only [List.length_drop]
        omega

/-- The batch partition of a symbol list flattens back to the list. -/
theorem batchGroups_flatten (bs : Nat) (xs : List String) :
    (batchGroups bs xs).flatten = xs :=
  batchGroupsFuel_flatten bs xs.length xs le_rfl

/-- C5: the orchestrator output carries exactly one entry per input symbol,
with no omissions and no extra keys, for every service behaviour, evaluation
time and random stream. -/
theorem resolveMany_keys_exact (envs : String → QuoteEnv) (t : LocalTime)
    (rands : String → Nat → Rat) (symbols : List String) :
    (∀ s, s ∈ stockKeys (getMultipleStocksData envs t rands symbols) ↔ s ∈ symbols)
    ∧ (stockKeys (getMultipleStocksData envs t rands symbols)).Nodup := by
  unfold getMultipleStocksData
  rw [batchGroups_flatten]
  constructor
  · intro s
    rw [mem_stockKeys_foldl]
    simp [stockKeys]
  · exact nodup_stockKeys_foldl _ _ [] (by simp [stockKeys])

/-- C5, witness: on a three-symbol list every input symbol is a key of the
output. -/
theorem resolveMany_keys_exact_witness :
    "A" ∈ stockKeys (getMultipleStocksData (fun _ => envU) tSat
      (fun _ _ => 0) ["A", "B", "C"]) :=
  ((resolveMany_keys_exact (fun _ => envU) tSat (fun _ _ => 0) ["A", "B", "C"]).1 "A").mpr
    (by simp)

/-- C7: the total-failure placeholder is not deterministic; with every
waterfall attempt failing, two resolutions of the same symbol under the same
conditions but different random draws return different placeholder data, so
the code fabricates random values instead of the deterministic, clearly
marked placeholder the claim requires. -/
theorem placeholder_not_deterministic :
    (getQuote envU tSat "XYZ").1 = Except.error GetQuoteErr.noData
    ∧ getStockData envU tSat (fun _ => 0) "XYZ"
      ≠ getStockData envU tSat (fun _ => 1 / 2) "XYZ" := by
  constructor
  · with_unfolding_all decide
  · unfold getStockData
    rw [show (getQuote envU tSat "XYZ").1 = Except.error GetQuoteErr.noData from by
      with_unfolding_all decide]
    with_unfolding_all decide

/-- A truthy optional numeric field with a non-negative value is strictly
positive. -/
theorem truthy_val_pos (x : Option Rat)
    (hnn : x.all (fun v => decide (0 ≤ v)) = true)
    (ht : jsNumTruthy x = true) : 0 < jsNumVal x := by
  cases x with
  | none => simp [jsNumTruthy] at ht
  | some v =>
    simp only [jsNumTruthy, decide_eq_true_eq] at ht
    simp only [Option.all, decide_eq_true_eq] at hnn
    simpa [jsNumVal] using lt_of_le_of_ne hnn (Ne.symm ht)

/-- A falsy optional numeric field has value zero. -/
theorem falsy_val_zero (x : Option Rat) (ht : jsNumTruthy x = false) :
    jsNumVal x = 0 := by
  cases x with
  | none => rfl
  | some v =>
    simp only [jsNumTruthy, decide_eq_false_iff_not, not_not] at ht
    simpa [jsNumVal] using ht

/-- The price selection of a quote with non-negative sources lands in one of
three shapes: the degraded previous-day close, a strictly positive live
value, or zero with a zero previous close. -/
theorem selectPrice_cases (q : PolygonQuote) (h : nonnegPrices q = true) :
    ((selectPrice q).2 = true
      ∧ (selectPrice q).1 = jsNumVal (q.prevDay.map Bar.c))
    ∨ ((selectPrice q).2 = false ∧ 0 < (selectPrice q).1)
    ∨ ((selectPrice q).2 = false ∧ (selectPrice q).1 = 0
      ∧ jsNumVal (q.prevDay.map Bar.c) = 0) := by
  unfold nonnegPrices at h
  rw [Bool.and_eq_true, Bool.and_eq_true, Bool.and_eq_true] at h
  obtain ⟨⟨⟨h1, h2⟩, h3⟩, h4⟩ := h
  unfold selectPrice
  by_cases t1 : jsNumTruthy (q.last_trade.map LastPoint.price) = true
  · rw [if_pos t1]
    exact Or.inr (Or.inl ⟨rfl, truthy_val_pos _ h1 t1⟩)
  · rw [if_neg t1]
    by_cases t2 : jsNumTruthy (q.last_quote.map LastPoint.price) = true
    · rw [if_pos t2]
      exact Or.inr (Or.inl ⟨rfl, truthy_val_pos _ h2 t2⟩)
    · rw [if_neg t2]
      by_cases t3 : jsNumTruthy (q.min.map Bar.c) = true
      · rw [if_pos t3]
        exact Or.inr (Or.inl ⟨rfl, truthy_val_pos _ h3 t3⟩)
      · rw [if_neg t3]
        by_cases t4 : jsNumTruthy (q.prevDay.map Bar.c) = true
        · rw [if_pos t4]
          exact Or.inl ⟨rfl, rfl⟩
        · rw [if_neg t4]
          exact Or.inr (Or.inr ⟨rfl, rfl, falsy_val_zero _ (by simpa using t4)⟩)

/-- C8: for every quote with non-negative price sources, the change fields
are never computed against a zero divisor.  When the previous close is zero
or missing both change fields are zero, and otherwise the change equals
price minus previous close while changePercent equals that difference
divided by the previous close times 100, the degraded path included since
there the difference is zero. -/
theorem changePercent_zero_divisor_guard (q : PolygonQuote)
    (d : Option PolygonTickerDetails) (h : nonnegPrices q = true) :
    (jsNumVal (q.prevDay.map Bar.c) = 0 →
      (convertPolygonQuoteToStock q d).change = 0
      ∧ (convertPolygonQuoteToStock q d).changePercent = 0)
    ∧ (jsNumVal (q.prevDay.map Bar.c) ≠ 0 →
      (convertPolygonQuoteToStock q d).change
        = (convertPolygonQuoteToStock q d).price - jsNumVal (q.prevDay.map Bar.c)
      ∧ (convertPolygonQuoteToStock q d).changePercent
        = ((convertPolygonQuoteToStock q d).price - jsNumVal (q.prevDay.map Bar.c))
          / jsNumVal (q.prevDay.map Bar.c) * 100) := by
  have hpc0 : 0 ≤ jsNumVal (q.prevDay.map Bar.c) := by
    have h4 : (q.prevDay.map Bar.c).all (fun v => decide (0 ≤ v)) = true := by
      unfold nonnegPrices at h
      rw [Bool.and_eq_true, Bool.and_eq_true, Bool.and_eq_true] at h
      exact h.2
    cases hq : q.prevDay.map Bar.c with
    | none => simp [jsNumVal]
    | some v =>
      rw [hq] at h4
      simp only [Option.all, decide_eq_true_eq] at h4
      simpa [jsNumVal] using h4
  rcases selectPrice_cases q h with ⟨hf, hp⟩ | ⟨hf, hp⟩ | ⟨hf, hp, hpz⟩
  · constructor
    · intro hpcz
      simp [convertPolygonQuoteToStock, hf]
    · intro hpcn
      simp [convertPolygonQuoteToStock, hf, hp]
  · constructor
    · intro hpcz
      simp [convertPolygonQuoteToStock, hpcz]
    · intro hpcn
      have hpcpos : 0 < jsNumVal (q.prevDay.map Bar.c) :=
        lt_of_le_of_ne hpc0 (Ne.symm hpcn)
      simp [convertPolygonQuoteToStock, hf, hp, hpcpos]
  · constructor
    · intro hpcz
      simp [convertPolygonQuoteToStock, hp]
    · intro hpcn
      exact absurd hpz hpcn

/-- C8, witness at a live quote with previous close 188. -/
theorem changePercent_guard_witness :
    nonnegPrices qLive = true
    ∧ (convertPolygonQuoteToStock qLive none).change
      = (convertPolygonQuoteToStock qLive none).price - 188
    ∧ (convertPolygonQuoteToStock qLive none).changePercent
      = ((convertPolygonQuoteToStock qLive none).price - 188) / 188 * 100 := by
  have h := (changePercent_zero_divisor_guard qLive none (by with_unfolding_all decide)).2
    (by with_unfolding_all decide)
  have h188 : jsNumVal (qLive.prevDay.map Bar.c) = 188 := by with_unfolding_all decide
  refine ⟨by with_unfolding_all decide, ?_, ?_⟩
  · rw [← h188]
    exact h.1
  · rw [← h188]
    exact h.2

/-- The transformation preserves the last-trade price field. -/
theorem transform_lt_price (s : String) (raw : RawSnapshot) :
    (transformResult s raw).last_trade.map LastPoint.price
      = raw.last_trade.map RawLastTrade.p := by
  cases h : raw.last_trade <;> simp [transformResult, h]

/-- The transformation maps the last-quote to its ask-bid midpoint. -/
theorem transform_lq_price (s : String) (raw : RawSnapshot) :
    (transformResult s raw).last_quote.map LastPoint.price
      = raw.last_quote.map (fun lq => (lq.a + lq.b) / 2) := by
  cases h : raw.last_quote <;> simp [transformResult, h]

/-- The transformation preserves the intraday aggregate bar. -/
theorem transform_min (s : String) (raw : RawSnapshot) :
    (transformResult s raw).min = raw.min := rfl

/-- During non-off-hours, a successful snapshot response is the single
attempt of the waterfall and its result the resolved quote. -/
theorem getQuote_open_snapshot (t : LocalTime) (e : QuoteEnv) (s : String)
    (raw : RawSnapshot) (hoff : marketOffHours t = false)
    (hsnap : e.snapshotResp 0 = Except.ok { status := "OK", results := some raw }) :
    getQuote e t s = (Except.ok (transformResult s raw), [Endpoint.snapshot]) := by
  unfold getQuote
  simp [hoff, hsnap, runSnapshotAttempt]

/-- C6: at an OPEN session time with a successful snapshot response, the
resolved price is classified in priority order with no unit conversion: a
populated last-trade price is returned exactly; with the last trade absent
or zero the last-quote ask-bid midpoint is used; with both unavailable the
intraday-aggregate close is used; in each live case the degradation flag is
false. -/
theorem open_snapshot_price_priority (t : LocalTime) (e : QuoteEnv) (s : String)
    (r : Nat → Rat) (raw : RawSnapshot)
    (hopen : getSessionState t = SessionState.OPEN)
    (hsnap : e.snapshotResp 0 = Except.ok { status := "OK", results := some raw }) :
    (∀ lt, raw.last_trade = some lt → lt.p ≠ 0 →
      (getStockData e t r s).price = lt.p
      ∧ quoteFlag ((getQuote e t s).1) = Except.ok false)
    ∧ (jsNumTruthy (raw.last_trade.map RawLastTrade.p) = false →
      ∀ lq, raw.last_quote = some lq → (lq.a + lq.b) / 2 ≠ 0 →
        (getStockData e t r s).price = (lq.a + lq.b) / 2
        ∧ quoteFlag ((getQuote e t s).1) = Except.ok false)
    ∧ (jsNumTruthy (raw.last_trade.map RawLastTrade.p) = false →
      jsNumTruthy (raw.last_quote.map (fun lq => (lq.a + lq.b) / 2)) = false →
      ∀ b, raw.min = some b → b.c ≠ 0 →
        (getStockData e t r s).price = b.c
        ∧ quoteFlag ((getQuote e t s).1) = Except.ok false) := by
  have hq := getQuote_open_snapshot t e s raw (open_not_offHours t hopen) hsnap
  refine ⟨?_, ?_, ?_⟩
  · intro lt hlt hne
    have hsel : selectPrice (transformResult s raw) = (lt.p, false) := by
      unfold selectPrice
      rw [transform_lt_price, hlt]
      simp [jsNumTruthy, jsNumVal, hne]
    constructor
    · unfold getStockData
      rw [hq]
      simp [convertPolygonQuoteToStock, hsel]
    · unfold quoteFlag
      rw [hq]
      simp [Except.map, usesPrevDayAsCurrentPrice, hsel]
  · intro hlt lq hlq hne
    have hsel : selectPrice (transformResult s raw) = ((lq.a + lq.b) / 2, false) := by
      unfold selectPrice
      rw [transform_lt_price, transform_lq_price, hlt, hlq]
      simp [jsNumTruthy, jsNumVal, hne]
    constructor
    · unfold getStockData
      rw [hq]
      simp [convertPolygonQuoteToStock, hsel]
    · unfold quoteFlag
      rw [hq]
      simp [Except.map, usesPrevDayAsCurrentPrice, hsel]
  · intro hlt hlq b hmin hne
    have hsel : selectPrice (transformResult s raw) = (b.c, false) := by
      unfold selectPrice
      rw [transform_lt_price, transform_lq_price, transform_min, hlt, hlq, hmin]
      simp [jsNumTruthy, jsNumVal, hne]
    constructor
    · unfold getStockData
      rw [hq]
      simp [convertPolygonQuoteToStock, hsel]
    · unfold quoteFlag
      rw [hq]
      simp [Except.map, usesPrevDayAsCurrentPrice, hsel]

/-- C6, witness: Tuesday 10:00 with a snapshot holding last trade 190 gives
price 190 with the degradation flag false. -/
theorem open_snapshot_price_priority_witness :
    getSessionState tOpen = SessionState.OPEN
    ∧ (getStockData envLive tOpen (fun _ => 0) "AAPL").price = 190
    ∧ quoteFlag ((getQuote envLive tOpen "AAPL").1) = Except.ok false := by
  have h := (open_snapshot_price_priority tOpen envLive "AAPL" (fun _ => 0) rawAAPL
    (by with_unfolding_all decide) rfl).1 { p := 190, t := 0 } rfl
    (by with_unfolding_all decide)
  exact ⟨by with_unfolding_all decide, h.1, h.2⟩

/-- C9, counterexample: a quote whose intraday aggregate has high 10 but a
zero low and no previous-day bar produces a converted high equal to the
price 5, not the present source high 10, so high does not default
independently of low. -/
theorem high_low_not_independent_counterexample :
    qNine.min.map Bar.h = some 10
    ∧ (convertPolygonQuoteToStock qNine none).price = 5
    ∧ (convertPolygonQuoteToStock qNine none).high = 5
    ∧ ¬ (convertPolygonQuoteToStock qNine none).high = 10 := by
  with_unfolding_all decide

/-- C9, amended: volume falls back independently through the intraday then
previous-day values to zero, but high and low are selected as a pair: the
intraday pair when both members are truthy, else the previous-day pair when
both are truthy, else both default to the price. -/
theorem high_low_pair_volume_chain (q : PolygonQuote) (d : Option PolygonTickerDetails) :
    (convertPolygonQuoteToStock q d).volume
      = (if jsNumTruthy (q.min.map Bar.v) then jsNumVal (q.min.map Bar.v)
         else if jsNumTruthy (q.prevDay.map Bar.v) then jsNumVal (q.prevDay.map Bar.v)
         else 0)
    ∧ ((convertPolygonQuoteToStock q d).high, (convertPolygonQuoteToStock q d).low)
      = (if jsNumTruthy (q.min.map Bar.h) && jsNumTruthy (q.min.map Bar.l) then
           (jsNumVal (q.min.map Bar.h), jsNumVal (q.min.map Bar.l))
         else if jsNumTruthy (q.prevDay.map Bar.h) && jsNumTruthy (q.prevDay.map Bar.l) then
           (jsNumVal (q.prevDay.map Bar.h), jsNumVal (q.prevDay.map Bar.l))
         else ((convertPolygonQuoteToStock q d).price,
           (convertPolygonQuoteToStock q d).price)) := by
  refine ⟨by simp [convertPolygonQuoteToStock], ?_⟩
  by_cases hm : (jsNumTruthy (q.min.map Bar.h) && jsNumTruthy (q.min.map Bar.l)) = true
  · simp [convertPolygonQuoteToStock, hm]
  · by_cases hp : (jsNumTruthy (q.prevDay.map Bar.h)
        && jsNumTruthy (q.prevDay.map Bar.l)) = true
    · simp [convertPolygonQuoteToStock, hm, hp]
    · simp [convertPolygonQuoteToStock, hm, hp]

/-- C10: a price-source field that is present but zero is treated as absent
by the selection chain, which falls through to the next source, and a quote
whose every source is zero or absent resolves to price zero. -/
theorem zero_price_treated_absent (q : PolygonQuote) :
    (q.last_trade.map LastPoint.price = some 0 →
      selectPrice q = selectPrice { q with last_trade := none })
    ∧ (q.last_quote.map LastPoint.price = some 0 →
      selectPrice q = selectPrice { q with last_quote := none })
    ∧ (q.min.map Bar.c = some 0 →
      selectPrice q = selectPrice { q with min := none })
    ∧ (jsNumTruthy (q.last_trade.map LastPoint.price) = false →
      jsNumTruthy (q.last_quote.map LastPoint.price) = false →
      jsNumTruthy (q.min.map Bar.c) = false →
      jsNumTruthy (q.prevDay.map Bar.c) = false →
      selectPrice q = (0, false)
      ∧ (convertPolygonQuoteToStock q none).price = 0) := by
  refine ⟨?_, ?_, ?_, ?_⟩
  · intro h
    simp [selectPrice, h, jsNumTruthy]
  · intro h
    simp [selectPrice, h, jsNumTruthy]
  · intro h
    simp [selectPrice, h, jsNumTruthy]
  · intro h1 h2 h3 h4
    constructor
    · simp [selectPrice, h1, h2, h3, h4]
    · simp [convertPolygonQuoteToStock, selectPrice, h1, h2, h3, h4]

/-- C10, witness at a quote whose every source field is present but zero. -/
theorem zero_price_treated_absent_witness :
    selectPrice qZero = selectPrice { qZero with last_trade := none }
    ∧ selectPrice qZero = (0, false)
    ∧ (convertPolygonQuoteToStock qZero none).price = 0 := by
  have h := zero_price_treated_absent qZero
  have hz := h.2.2.2 (by with_unfolding_all decide) (by with_unfolding_all decide)
    (by with_unfolding_all decide) (by with_unfolding_all decide)
  exact ⟨h.1 (by with_unfolding_all decide), hz.1, hz.2⟩
